import Mathlib

/-!
# Verification of roundup-admin (`roundup/admin.py`)

A shallow embedding of the administrative command surface of the Roundup
tracker: the command-name resolver (`CommandDict.get` / `run_command`), the
raw-assignment parser (`props_from_args`), the transitive property-path walk
performed by `do_filter`, and the CSV round-trip engine (`do_export` /
`do_import`).  Property names, class names and raw values are Lean `String`s;
Python dictionaries become association lists; exceptions become `Except`.
-/

namespace Roundup

/-- Property kinds of the hyperdb schema.  `link`/`multilink` carry the name
of the class they reference (the `classname` attribute in the Python source);
the other kinds have no `classname` attribute, so reading it raises
`AttributeError` in Python. -/
inductive PropKind where
  | string
  | number
  | boolean
  | date
  | interval
  | password
  | link (classname : String)
  | multilink (classname : String)
  deriving DecidableEq, Repr

/-- The `classname` attribute of a property object: present exactly on
Link/MultiLink kinds (`none` models Python's `AttributeError`). -/
def PropKind.classnameAttr : PropKind → Option String
  | .link c => some c
  | .multilink c => some c
  | _ => none

/-- A schema: class name ↦ ordered property list (name ↦ kind). -/
def Schema := List (String × List (String × PropKind))

/-- First-match association-list lookup (Python dict indexing; keys are
unique in every dictionary the source builds). -/
def lookupStr {β : Type} (k : String) : List (String × β) → Option β
  | [] => none
  | (k', v) :: rest => if k' = k then some v else lookupStr k rest

/-- Equality of `Except` results is decidable, so that concrete runs can be
checked by evaluation. -/
instance {ε α : Type} [DecidableEq ε] [DecidableEq α] :
    DecidableEq (Except ε α)
  | .error a, .error b =>
    if h : a = b then .isTrue (h ▸ rfl)
    else .isFalse fun hh => h (Except.error.inj hh)
  | .error _, .ok _ => .isFalse Except.noConfusion
  | .ok _, .error _ => .isFalse Except.noConfusion
  | .ok a, .ok b =>
    if h : a = b then .isTrue (h ▸ rfl)
    else .isFalse fun hh => h (Except.ok.inj hh)

/-- `getprops()[pn]` for a class of the schema. -/
def lookupProp (schema : Schema) (cls pn : String) : Option PropKind :=
  match lookupStr cls schema with
  | none => none
  | some props => lookupStr pn props

/-- Does the schema define the class? (`db.getclass` succeeds). -/
def classExists (schema : Schema) (cls : String) : Bool :=
  (lookupStr cls schema).isSome

/-- Failures raised while walking a dotted filter path in `do_filter`
(both surface as `UsageError` in the source; there is no dedicated
"not traversable" failure anywhere in the code). -/
inductive FilterErr where
  | noSuchProperty (cls pn : String)
  | noSuchClass (cls : String)
  deriving DecidableEq, Repr

/-- Python's `str.split(sep)` for a one-character separator, over the
character list of the string. -/
def splitOnChar (c : Char) : List Char → List (List Char)
  | [] => [[]]
  | x :: xs =>
    if x = c then [] :: splitOnChar c xs
    else
      match splitOnChar c xs with
      | [] => [[x]]
      | y :: ys => (x :: y) :: ys

/-- One iteration of the hop loop in `AdminTool.do_filter`
(admin.py lines 821‑837).  State is `(curclass, lastprop)`.  The source sets
`lastprop = pn`, then evaluates `curclass.getprops()[pn].classname`:
a `KeyError` (property absent) is converted to a `UsageError`; an
`AttributeError` (property present but not Link/MultiLink) is caught and
**passed**, leaving `curclass` unchanged; otherwise `curclass` advances to
the hop's target class (a `UsageError` if that class does not exist). -/
def filterStep (schema : Schema) (st : String × String) (pn : String) :
    Except FilterErr (String × String) :=
  match lookupProp schema st.1 pn with
  | none => .error (.noSuchProperty st.1 pn)
  | some k =>
    match k.classnameAttr with
    | none => .ok (st.1, pn)
    | some tgt =>
      if classExists schema tgt then .ok (tgt, pn)
      else .error (.noSuchClass tgt)

/-- The transitive-path walk of `AdminTool.do_filter` (admin.py lines
813‑837): if the property name contains no `'.'` the class and name are used
as given; otherwise every dot-separated component is folded through
`filterStep`, and the resulting `(curclass, lastprop)` pair is what the raw
value is subsequently decoded against. -/
def filterResolve (schema : Schema) (startClass propname : String) :
    Except FilterErr (String × String) :=
  if propname.toList.contains '.' then
    (splitOnChar '.' propname.toList).foldlM
      (fun st pn => filterStep schema st (String.mk pn)) (startClass, propname)
  else .ok (startClass, propname)

/-- A one-class schema used as a concrete counterexample: class `issue`
with a single String property `title`. -/
def schemaTitleOnly : Schema :=
  [("issue", [("title", PropKind.string)])]

/-! ## CommandDict and command-name resolution -/

/-- Python's `ki.startswith(key)`, over character lists. -/
def startsWith (key s : String) : Bool :=
  key.toList.isPrefixOf s.toList

/-- Lexicographic code-point order on command names, the order Python's
`sorted` applies to strings; stated on the character lists so that it is
kernel-computable. -/
def nameLe (a b : String) : Prop :=
  a.toList ≤ b.toList

instance : DecidableRel nameLe := fun a b =>
  (inferInstance : Decidable (a.toList ≤ b.toList))

instance : IsTotal String nameLe :=
  ⟨fun a b => le_total a.toList b.toList⟩

instance : IsTrans String nameLe :=
  ⟨fun _ _ _ hab hbc => le_trans hab hbc⟩

/-- `sorted(self.data)` in `CommandDict.get`: the registered names in
lexicographic order.  Python's `sorted` is a stable sort; on the name list
(whose entries are pairwise distinct dictionary keys) every sort producing a
lexicographically ordered permutation yields the same list, so insertion
sort is an exact model. -/
def cdKeylist {α : Type} (data : List (String × α)) : List String :=
  (data.map Prod.fst).insertionSort nameLe

/-- The `matching_keys` list of `CommandDict.get`: every registered name
with `key` as a prefix, paired with its operation, in sorted-key order. -/
def cdMatching {α : Type} (data : List (String × α)) (key : String) :
    List (String × α) :=
  (cdKeylist data).filterMap fun ki =>
    if startsWith key ki then (lookupStr ki data).map fun v => (ki, v)
    else none

/-- `CommandDict.get` (admin.py lines 58‑71).  `dflt = none` models calling
`get` without a default (the `_marker` sentinel); `dflt = some d` models an
explicitly supplied default.  An exact key hit returns the single pair at
once; otherwise the sorted key list is scanned for keys having `key` as a
prefix; with no match and no default a `KeyError` is raised, and otherwise
the (possibly empty) matching list is returned — never the default itself. -/
def cdGet {α : Type} (data : List (String × α)) (key : String)
    (dflt : Option (List (String × α))) : Except Unit (List (String × α)) :=
  match lookupStr key data with
  | some v => .ok [(key, v)]
  | none =>
    if (cdMatching data key).isEmpty && dflt.isNone then .error ()
    else .ok (cdMatching data key)

/-- Outcome of resolving a typed command name in `run_command`. -/
inductive Resolution (α : Type) where
  | dispatched (name : String) (op : α)
  | notFound
  | ambiguous (candidates : List String)
  deriving DecidableEq, Repr

/-- The command-resolution portion of `AdminTool.run_command` (admin.py
lines 1740‑1755): `self.commands.get(command)` with no default; a `KeyError`
prints "Unknown command"; more than one match prints "Multiple commands
match" with the matching names; otherwise the single `(name, function)` pair
is dispatched.  `none` models the `IndexError` that `functions[0]` would
raise on an empty list (unreachable, since `get` raises instead). -/
def run_command_resolve {α : Type} (data : List (String × α)) (key : String) :
    Option (Resolution α) :=
  match cdGet data key none with
  | .error _ => some .notFound
  | .ok fns =>
    if 1 < fns.length then some (.ambiguous (fns.map Prod.fst))
    else
      match fns with
      | [] => none
      | (n, f) :: _ => some (.dispatched n f)

/-- Written from the spec's words (§4.1): every registered name with the
typed name as a prefix, collected in lexicographic order. -/
def specCandidates {α : Type} (data : List (String × α)) (key : String) :
    List String :=
  (cdKeylist data).filter fun n => startsWith key n

/-- The resolution rule exactly as the specification words it: an exact
registered name returns immediately; otherwise zero candidates is
not-found, one candidate dispatches that name's operation, and more than
one is ambiguous with the sorted candidate list.  (The inner
`none => .notFound` arm is unreachable: a candidate is always a registered
name.) -/
def specResolve {α : Type} (data : List (String × α)) (key : String) :
    Resolution α :=
  match lookupStr key data with
  | some v => .dispatched key v
  | none =>
    match specCandidates data key with
    | [] => .notFound
    | [m] =>
      match lookupStr m data with
      | some v => .dispatched m v
      | none => .notFound
    | ms => .ambiguous ms

/-- Registered names used in concrete resolution examples. -/
def sampleCommands : List (String × Nat) :=
  [("set", 0), ("setting", 1), ("show", 2), ("status", 3)]

/-! ## props_from_args -/

/-- Python's `arg.split('=', 1)`: `none` when the string has no `'='`,
otherwise the parts before and after the first `'='`. -/
def splitEqOnce : List Char → Option (List Char × List Char)
  | [] => none
  | c :: cs =>
    if c = '=' then some ([], cs)
    else
      match splitEqOnce cs with
      | none => none
      | some (a, b) => some (c :: a, b)

/-- One argument of `AdminTool.props_from_args` (admin.py lines 114‑131):
no `'='` raises a `UsageError`; `name=text` with non-empty `text` yields
`(name, some text)`; `name=` yields `(name, none)` (Python stores `None`,
the "unset" value). -/
def parseArg (arg : String) : Except Unit (String × Option String) :=
  match splitEqOnce arg.toList with
  | none => .error ()
  | some (k, v) =>
    .ok (String.mk k, if v.isEmpty then none else some (String.mk v))

/-- Python dict assignment `props[key] = value`: replace an existing
binding in place, else append. -/
def dictInsert {β : Type} : List (String × β) → String → β → List (String × β)
  | [], k, v => [(k, v)]
  | (k', v') :: rest, k, v =>
    if k' = k then (k, v) :: rest else (k', v') :: dictInsert rest k v

/-- `AdminTool.props_from_args`: fold the argument list into the `props`
dictionary, aborting with a `UsageError` on the first argument lacking
`'='`. -/
def props_from_args (args : List String) :
    Except Unit (List (String × Option String)) :=
  args.foldlM
    (fun props arg => (parseArg arg).map fun kv => dictInsert props kv.1 kv.2)
    []

/-! ## The export engine (`do_export`) -/

/-- One stored instance of a class as the export loop sees it: the value of
the class's key property (as returned by `cl.get(i, classkey)`), the
retirement flag (`cl.is_retired(i)`), and the already-encoded textual
property values (`repr_export(node[p])`). -/
structure Node where
  key : String
  retired : Bool
  vals : List (String × String)
  deriving DecidableEq, Repr

/-- `repr_export(node[p])`: the encoded text of property `p` of the node. -/
def getVal (n : Node) (p : String) : String :=
  (lookupStr p n.vals).getD ""

/-- `not cl.is_retired(i)` as Python orders booleans: `False` (retired)
sorts before `True` (live). -/
def retOrd (n : Node) : Nat :=
  if n.retired then 0 else 1

/-- The sort key of `do_export` (admin.py lines 1427‑1430):
`(cl.get(i, classkey), not cl.is_retired(i))`, compared as Python compares
tuples — lexicographically, with the key string compared by code points. -/
def exportLe (a b : Node) : Prop :=
  a.key.toList < b.key.toList ∨ (a.key = b.key ∧ retOrd a ≤ retOrd b)

instance : DecidableRel exportLe := fun a b => by
  unfold exportLe
  infer_instance

instance : IsTotal Node exportLe :=
  ⟨fun a b => by
    rcases lt_trichotomy a.key.toList b.key.toList with h | h | h
    · exact Or.inl (Or.inl h)
    · rcases Nat.le_total (retOrd a) (retOrd b) with h' | h'
      · exact Or.inl (Or.inr ⟨String.toList_inj.mp h, h'⟩)
      · exact Or.inr (Or.inr ⟨(String.toList_inj.mp h).symm, h'⟩)
    · exact Or.inr (Or.inl h)⟩

instance : IsTrans Node exportLe :=
  ⟨fun a b c hab hbc => by
    rcases hab with hab | ⟨hab, hab'⟩ <;> rcases hbc with hbc | ⟨hbc, hbc'⟩
    · exact Or.inl (lt_trans hab hbc)
    · exact Or.inl (hbc ▸ hab)
    · exact Or.inl (hab ▸ hbc)
    · exact Or.inr ⟨hab.trans hbc, le_trans hab' hbc'⟩⟩

/-- The node order of `do_export` (admin.py lines 1424‑1431): with a class
key, all nodes are sorted by `(key value, not is_retired)`; without one the
`getnodeids()` order is kept.  Python's `list.sort` and insertion sort are
both stable, so they agree on every input. -/
def exportOrder (classkey : Option String) (nodes : List Node) : List Node :=
  match classkey with
  | some _ => nodes.insertionSort exportLe
  | none => nodes

/-- Modelled from the spec: `Class.export_list` of the hyperdb (not under
src/) produces one textual field per property in order, "plus one trailing
`is retired` flag" (§3 ExportRow), the flag being the non-empty text `"1"`
or `"0"`. -/
def export_list (propnames : List String) (n : Node) : List String :=
  (propnames.map fun p => getVal n p) ++ [if n.retired then "1" else "0"]

/-- `lensum` of the export loop (admin.py line 1440): the summed lengths of
the raw encoded property values of one node. -/
def rowLenSum (propnames : List String) (n : Node) : Nat :=
  (propnames.map fun p => (getVal n p).length).sum

/-- `d` of the export loop (admin.py line 1444): the length of the full
CSV-encoded row minus `lensum`; the code asserts `d > 0`. -/
def rowD (propnames : List String) (n : Node) : Int :=
  (((export_list propnames n).map String.length).sum : Int) - rowLenSum propnames n

/-- The inner `for p in propnames` loop of admin.py lines 1447‑1450:
`ll = len(repr_export(node[p])) + d`, and `max_len` is raised to any `ll`
exceeding it. -/
def nodeMaxLen (propnames : List String) (n : Node) (cur : Nat) : Nat :=
  propnames.foldl
    (fun m p =>
      if m < (getVal n p).length + (rowD propnames n).toNat
      then (getVal n p).length + (rowD propnames n).toNat
      else m)
    cur

/-- Result of exporting one class. -/
structure ExportResult where
  header : List String
  rows : List (List String)
  maxLen : Nat
  warned : Bool
  ret : Nat
  deriving DecidableEq, Repr

/-- The per-class body of `AdminTool.do_export` (admin.py lines 1402‑1467):
header row of property names plus `is retired`; nodes ordered by
`exportOrder`; per node an `AssertionError` if `d ≤ 0` (modelled as
`.error ()`), otherwise the field-length accounting updates `max_len`,
which starts at the configured `csv_field_size`; one row written per node;
a non-fatal warning is printed at the end iff `max_len` exceeds the
configured size; the return value is `0`. -/
def doExportClass (propnames : List String) (classkey : Option String)
    (nodes : List Node) (configSize : Nat) : Except Unit ExportResult :=
  match (exportOrder classkey nodes).foldlM
      (fun m n =>
        if 0 < rowD propnames n then Except.ok (nodeMaxLen propnames n m)
        else Except.error ())
      configSize with
  | .error e => .error e
  | .ok maxLen =>
    .ok { header := propnames ++ ["is retired"]
          rows := (exportOrder classkey nodes).map (export_list propnames)
          maxLen := maxLen
          warned := decide (configSize < maxLen)
          ret := 0 }

/-! ## The import engine (`do_import`) -/

/-- Failures raised while importing; `formatMismatch`/`rowArity` are the
spec's `FormatMismatch`/`RowArityError`, `journalMissing` is the
`FileNotFoundError` of the journal `open`, `noSuchClass` the `UsageError`
of `get_class`. -/
inductive ImpErr where
  | formatMismatch (classname : String)
  | rowArity (classname : String)
  | invalidId (classname : String)
  | journalMissing (filename : String)
  | noSuchClass (classname : String)
  deriving DecidableEq, Repr

/-- One `<class>.csv` file of the import directory: the class name (from
the file name), the header line, and the data rows, each a list of fields. -/
structure ClassFile where
  classname : String
  header : List String
  rows : List (List String)
  deriving DecidableEq, Repr

/-- Python's `int()` on a string of decimal digits (an identifier). -/
def parseId (s : String) : Option Nat :=
  match s.toList with
  | [] => none
  | l =>
    if l.all Char.isDigit then
      some (l.foldl (fun acc c => acc * 10 + (c.toNat - 48)) 0)
    else none

/-- Modelled from the spec: `Class.import_list` of the hyperdb (not under
src/) fails with `FormatMismatch` "if the header's field count or names
disagree with the class's current schema" (property names in schema order
plus `is retired`), with `RowArityError` "if any data row's field count
disagrees with the header", and otherwise recreates the instance at its
original identifier, "taken literally" from the row (we model the
identifier as the row's first field), returning that identifier. -/
def import_list (classname : String) (classProps file_props row : List String) :
    Except ImpErr Nat :=
  if file_props ≠ classProps ++ ["is retired"] then
    .error (.formatMismatch classname)
  else if row.length ≠ file_props.length then
    .error (.rowArity classname)
  else
    match row.head? with
    | none => .error (.rowArity classname)
    | some idField =>
      match parseId idField with
      | none => .error (.invalidId classname)
      | some n => .ok n

/-- One class of `AdminTool.do_import` (admin.py lines 1523‑1558):
`get_class` raises on an unknown class; every data row goes through
`import_list`, any failure propagating (there is no per-row or per-file
handler); `maxid` starts at `1` and is raised to each imported identifier;
then the journal companion file is opened — with no handler, so a missing
file raises — and finally `db.setid(classname, str(maxid+1))` sets the
counter, whose value we return.  `schema` maps each class to its property
names, `journals` maps each class with a journal file present to that
file's rows. -/
def doImportClass (schema : List (String × List String))
    (journals : List (String × List (List String))) (f : ClassFile) :
    Except ImpErr Nat :=
  match lookupStr f.classname schema with
  | none => .error (.noSuchClass f.classname)
  | some classProps =>
    match f.rows.foldlM
        (fun m r => (import_list f.classname classProps f.header r).map
          fun idn => max m idn)
        1 with
    | .error e => .error e
    | .ok maxid =>
      match lookupStr f.classname journals with
      | none => .error (.journalMissing (f.classname ++ "-journals.csv"))
      | some _ => .ok (maxid + 1)

/-- The file loop of `AdminTool.do_import` (admin.py lines 1517‑1558):
the per-class files are processed in directory order; any error propagates
out of the loop (there is no try/except around the body), so the classes
after a failing file are never reached.  On success the list of
`(classname, identifier counter)` pairs set by `db.setid` is returned. -/
def doImport (schema : List (String × List String))
    (journals : List (String × List (List String)))
    (files : List ClassFile) : Except ImpErr (List (String × Nat)) :=
  files.foldlM
    (fun acc f => (doImportClass schema journals f).map
      fun c => acc ++ [(f.classname, c)])
    []

/-! ## Concrete instances used as counterexamples and witnesses -/

/-- Two nodes of a keyed class sharing the key value `alpha`: one live, one
retired, listed live-first so that only the export sort can put the retired
one first. -/
def nodesSameKey : List Node :=
  [⟨"alpha", false, [("id", "1")]⟩, ⟨"alpha", true, [("id", "2")]⟩]

/-- A two-class import schema: `issue` and `msg` with their property
orders. -/
def schemaIssueMsg : List (String × List String) :=
  [("issue", ["id", "title"]), ("msg", ["id", "content"])]

/-- Journal files present for both classes (empty journals). -/
def journalsBoth : List (String × List (List String)) :=
  [("issue", []), ("msg", [])]

/-- Journal file present only for `msg`: the `issue-journals.csv` companion
is absent from the import directory. -/
def journalsMsgOnly : List (String × List (List String)) :=
  [("msg", [])]

/-- An `issue.csv` whose single data row carries identifier `0`. -/
def fileZeroId : ClassFile :=
  ⟨"issue", ["id", "title", "is retired"], [["0", "hello", "0"]]⟩

/-- An `issue.csv` whose header names `status` where the class has `title`:
a fatal format mismatch for this file. -/
def fileBadHeader : ClassFile :=
  ⟨"issue", ["id", "status", "is retired"], [["1", "x", "0"]]⟩

/-- A well-formed `msg.csv` with one row of identifier `3`. -/
def fileGoodMsg : ClassFile :=
  ⟨"msg", ["id", "content", "is retired"], [["3", "hi", "0"]]⟩

/-- A well-formed `issue.csv` with rows of identifiers `2` and `5`. -/
def fileTwoRows : ClassFile :=
  ⟨"issue", ["id", "title", "is retired"],
   [["2", "a", "0"], ["5", "b", "1"]]⟩

end Roundup

namespace Roundup

/-- C1: the claim states that a dotted path whose non-final hop names an
existing non-Link/MultiLink property fails with `NotTraversable`.  On the
path `"title.title"` against a schema where `issue.title` is a String, the
walk of `do_filter` instead succeeds, silently skipping the hop and leaving
the current class unchanged — no failure of any kind is raised. -/
theorem filter_skips_nonlink_hop_counterexample :
    filterResolve schemaTitleOnly "issue" "title.title" =
      .ok ("issue", "title") := by
  rfl

/-- C1 (amended): when a hop names a property that exists in the current
class but is not of Link or MultiLink kind, the hop step of `do_filter`
silently skips the hop — it succeeds, keeps the current class unchanged, and
merely records the hop as the last property name; no failure is raised. -/
theorem filterStep_nonlink_skips (schema : Schema) (cur lastprop pn : String)
    (k : PropKind) (hfound : lookupProp schema cur pn = some k)
    (hnotlink : k.classnameAttr = none) :
    filterStep schema (cur, lastprop) pn = .ok (cur, pn) := by
  unfold filterStep
  rw [hfound]
  simp only [hnotlink]

/-- Witness for the amended C1 at a concrete schema: the String property
`title` of `issue` is found, is not a link, and the step skips it. -/
theorem filterStep_nonlink_skips_witness :
    filterStep schemaTitleOnly ("issue", "status") "title" =
      .ok ("issue", "title") :=
  filterStep_nonlink_skips schemaTitleOnly "issue" "status" "title"
    PropKind.string (by decide) (by decide)

/-! ### Command resolution lemmas -/

theorem lookupStr_mem {α : Type} {k : String} {v : α} {data : List (String × α)}
    (h : lookupStr k data = some v) : k ∈ data.map Prod.fst := by
  induction data with
  | nil => simp [lookupStr] at h
  | cons p rest ih =>
    obtain ⟨k', v'⟩ := p
    simp only [lookupStr] at h
    simp only [List.map_cons, List.mem_cons]
    by_cases hk : k' = k
    · exact Or.inl hk.symm
    · rw [if_neg hk] at h
      exact Or.inr (ih h)

theorem mem_lookupStr_isSome {α : Type} {n : String} {data : List (String × α)}
    (h : n ∈ data.map Prod.fst) : ∃ v, lookupStr n data = some v := by
  induction data with
  | nil => simp at h
  | cons p rest ih =>
    obtain ⟨k', v'⟩ := p
    simp only [List.map_cons, List.mem_cons] at h
    simp only [lookupStr]
    by_cases hk : k' = n
    · rw [if_pos hk]
      exact ⟨v', rfl⟩
    · rcases h with h | h
      · exact absurd h.symm hk
      · rw [if_neg hk]
        exact ih h

theorem isPrefixOf_self (l : List Char) : l.isPrefixOf l = true := by
  induction l with
  | nil => rfl
  | cons a as ih => simp [List.isPrefixOf, ih]

theorem startsWith_self (s : String) : startsWith s s = true :=
  isPrefixOf_self s.toList

theorem filterMapPref_map_fst {α : Type} (data : List (String × α))
    (key : String) :
    ∀ l : List String, (∀ n ∈ l, n ∈ data.map Prod.fst) →
      (l.filterMap fun ki =>
        if startsWith key ki then (lookupStr ki data).map fun v => (ki, v)
        else none).map Prod.fst
        = l.filter fun n => startsWith key n := by
  intro l
  induction l with
  | nil => intro _; rfl
  | cons a as ih =>
    intro hmem
    have ha := hmem a (List.mem_cons_self a as)
    obtain ⟨v, hv⟩ := mem_lookupStr_isSome ha
    have ih' := ih fun n hn => hmem n (List.mem_cons_of_mem a hn)
    by_cases hp : startsWith key a = true
    · simp [List.filterMap_cons, List.filter_cons, hp, hv, ih']
    · simp [List.filterMap_cons, List.filter_cons, hp, ih']

theorem matching_map_fst {α : Type} (data : List (String × α)) (key : String) :
    (cdMatching data key).map Prod.fst = specCandidates data key :=
  filterMapPref_map_fst data key (cdKeylist data) fun _ hn =>
    (List.mem_insertionSort nameLe).mp hn

theorem mem_cdMatching {α : Type} {data : List (String × α)} {key ki : String}
    {v : α} (h : (ki, v) ∈ cdMatching data key) : lookupStr ki data = some v := by
  unfold cdMatching at h
  obtain ⟨a, _, hfa⟩ := List.mem_filterMap.mp h
  by_cases hp : startsWith key a = true
  · rw [if_pos hp] at hfa
    obtain ⟨w, hw, heq⟩ := Option.map_eq_some'.mp hfa
    obtain ⟨rfl, rfl⟩ := Prod.mk.injEq .. |>.mp heq
    exact hw
  · rw [if_neg hp] at hfa
    exact absurd hfa (by simp)

/-- C4: `run_command` resolution refines the spec's rule: it dispatches an
exact name immediately (exact match wins over prefix ambiguity), otherwise
it collects the registered names having the typed name as a prefix in
lexicographic order, reports not-found on zero matches, dispatches a unique
match, and reports the sorted candidate list on several matches.  The
`some` also shows the unreachable empty-list indexing never occurs. -/
theorem run_command_matches_spec {α : Type} (data : List (String × α))
    (key : String) :
    run_command_resolve data key = some (specResolve data key) ∧
    ∀ cs, specResolve data key = .ambiguous cs → List.Sorted nameLe cs := by
  have hfst := matching_map_fst data key
  constructor
  · unfold run_command_resolve specResolve cdGet
    cases hl : lookupStr key data with
    | some v => simp
    | none =>
      cases hc : specCandidates data key with
      | nil =>
        have hm : cdMatching data key = [] :=
          List.map_eq_nil_iff.mp (hc ▸ hfst)
        simp [hm]
      | cons m ms =>
        cases ms with
        | nil =>
          have hlen : (cdMatching data key).length = 1 := by
            rw [← List.length_map (cdMatching data key) Prod.fst, hfst, hc]
            rfl
          obtain ⟨x, hx⟩ := List.length_eq_one.mp hlen
          obtain ⟨ki, v⟩ := x
          have hkv : lookupStr ki data = some v :=
            mem_cdMatching (hx ▸ List.mem_singleton_self (ki, v))
          have hki : ki = m := by
            have h2 := hfst
            rw [hx, hc] at h2
            simpa using h2
          subst hki
          simp [hx, hkv]
        | cons m2 ms2 =>
          have hlt : 1 < (cdMatching data key).length := by
            rw [← List.length_map (cdMatching data key) Prod.fst, hfst, hc]
            simp only [List.length_cons]
            omega
          have hne : (cdMatching data key).isEmpty = false := by
            cases hmm : cdMatching data key with
            | nil => rw [hmm] at hlt; simp at hlt
            | cons y ys => rfl
          simp only [hne, Bool.false_and, Bool.false_eq_true, if_false,
            if_pos hlt, hfst, hc]
  · intro cs hcs
    have hsorted : List.Sorted nameLe (specCandidates data key) := by
      unfold specCandidates cdKeylist
      exact (List.sorted_insertionSort nameLe _).filter _
    unfold specResolve at hcs
    cases hl : lookupStr key data <;> rw [hl] at hcs
    case some v => exact Resolution.noConfusion hcs
    case none =>
      cases hc : specCandidates data key <;> rw [hc] at hcs
      case nil => exact Resolution.noConfusion hcs
      case cons m ms =>
        cases ms with
        | nil =>
          have hcs2 : (match lookupStr m data with
              | some v => Resolution.dispatched m v
              | none => Resolution.notFound) = Resolution.ambiguous cs := hcs
          cases hm : lookupStr m data <;> rw [hm] at hcs2 <;>
            exact Resolution.noConfusion hcs2
        | cons m2 ms2 =>
          have hcs2 : Resolution.ambiguous (m :: m2 :: ms2) =
              Resolution.ambiguous cs := hcs
          rw [← Resolution.ambiguous.inj hcs2]
          rw [hc] at hsorted
          exact hsorted

/-- Witness for C4 over concrete registered names `set`, `setting`, `show`,
`status`: an exact hit despite a longer prefix-sharing name, a unique
prefix match, an ambiguous prefix with the sorted candidate list, and a
miss. -/
theorem run_command_matches_spec_witness :
    run_command_resolve sampleCommands "set" =
      some (.dispatched "set" 0) ∧
    run_command_resolve sampleCommands "sh" =
      some (.dispatched "show" 2) ∧
    run_command_resolve sampleCommands "s" =
      some (.ambiguous ["set", "setting", "show", "status"]) ∧
    run_command_resolve sampleCommands "zzz" = some .notFound ∧
    List.Sorted nameLe ["set", "setting", "show", "status"] :=
  ⟨(run_command_matches_spec sampleCommands "set").1.trans (by decide),
   (run_command_matches_spec sampleCommands "sh").1.trans (by decide),
   (run_command_matches_spec sampleCommands "s").1.trans (by decide),
   (run_command_matches_spec sampleCommands "zzz").1.trans (by decide),
   (run_command_matches_spec sampleCommands "s").2
     ["set", "setting", "show", "status"] (by decide)⟩

/-- C10: with an explicitly supplied default and no registered name having
the key as a prefix, `CommandDict.get` returns the empty list: it neither
raises `KeyError` nor returns the supplied default. -/
theorem cdGet_default_no_match {α : Type} (data : List (String × α))
    (key : String) (d : List (String × α))
    (h : ∀ n ∈ data.map Prod.fst, startsWith key n = false) :
    cdGet data key (some d) = .ok [] := by
  have hl : lookupStr key data = none := by
    cases hl : lookupStr key data with
    | none => rfl
    | some v =>
      have hk := h key (lookupStr_mem hl)
      rw [startsWith_self key] at hk
      exact absurd hk (by simp)
  have hm : cdMatching data key = [] := by
    unfold cdMatching
    rw [List.filterMap_eq_nil_iff]
    intro a ha
    have hp := h a ((List.mem_insertionSort nameLe).mp ha)
    rw [if_neg (by simp [hp])]
  unfold cdGet
  rw [hl]
  simp [hm]

/-- Witness for C10: with default `some [("x", 99)]` and the key `help`
matching no registered name, `get` returns `[]`, not the default. -/
theorem cdGet_default_no_match_witness :
    cdGet sampleCommands "help" (some [("x", 99)]) = .ok [] :=
  cdGet_default_no_match sampleCommands "help" [("x", 99)] (by decide)

/-! ### Export engine lemmas -/

theorem rowD_eq_one (propnames : List String) (n : Node) :
    rowD propnames n = 1 := by
  have hflag : (if n.retired then "1" else "0").length = 1 := by
    cases n.retired <;> rfl
  have hmap : (propnames.map fun p => getVal n p).map String.length
      = propnames.map fun p => (getVal n p).length := by
    rw [List.map_map]
    rfl
  unfold rowD export_list rowLenSum
  rw [List.map_append, List.sum_append, hmap]
  simp only [List.map_cons, List.map_nil, List.sum_cons, List.sum_nil, hflag]
  omega

theorem foldlM_maxlen_ok (propnames : List String) :
    ∀ (l : List Node) (acc : Nat),
      l.foldlM
        (fun m n =>
          if 0 < rowD propnames n then Except.ok (nodeMaxLen propnames n m)
          else Except.error ())
        acc
      = Except.ok (l.foldl (fun m n => nodeMaxLen propnames n m) acc) := by
  intro l
  induction l with
  | nil => intro acc; rfl
  | cons a as ih =>
    intro acc
    have h : (0 : Int) < rowD propnames a := by
      rw [rowD_eq_one]
      exact zero_lt_one
    rw [List.foldlM_cons, if_pos h]
    simp only [List.foldl_cons]
    exact ih (nodeMaxLen propnames a acc)

/-- C9: for every exported row the difference `d` between the length of the
CSV-encoded row and the summed raw field lengths is strictly positive (it
is exactly the length of the trailing retirement flag), so the
`AssertionError` branch of the export loop is never taken and the export
always returns a result. -/
theorem export_d_positive (propnames : List String) (n : Node)
    (classkey : Option String) (nodes : List Node) (configSize : Nat) :
    0 < rowD propnames n ∧
      ∃ res, doExportClass propnames classkey nodes configSize = .ok res := by
  constructor
  · rw [rowD_eq_one]
    exact zero_lt_one
  · unfold doExportClass
    rw [foldlM_maxlen_ok]
    exact ⟨_, rfl⟩

/-- C7: the export of a class always completes successfully — it returns
`0` and writes one row per node — and the oversized-field condition is
surfaced only through the `warned` diagnostic, which is set exactly when
the tracked maximal field length exceeds the configured safe-buffer size
and never influences the result. -/
theorem export_oversize_nonfatal (propnames : List String)
    (classkey : Option String) (nodes : List Node) (configSize : Nat) :
    ∃ res, doExportClass propnames classkey nodes configSize = .ok res ∧
      res.rows.length = nodes.length ∧ res.ret = 0 ∧
      (res.warned = true ↔ configSize < res.maxLen) := by
  unfold doExportClass
  rw [foldlM_maxlen_ok]
  refine ⟨_, rfl, ?_, rfl, ?_⟩
  · cases classkey <;>
      simp [exportOrder, List.length_insertionSort]
  · simp

/-- C3: in the export order of a class with a key property, a retired node
and a live node sharing the same key value appear with the retired node
strictly first; `doExportClass` writes its rows in exactly this node
order. -/
theorem export_retired_before_live (k : String) (nodes : List Node)
    (i j : Nat)
    (hi : i < (exportOrder (some k) nodes).length)
    (hj : j < (exportOrder (some k) nodes).length)
    (hkey : ((exportOrder (some k) nodes).get ⟨i, hi⟩).key =
      ((exportOrder (some k) nodes).get ⟨j, hj⟩).key)
    (hri : ((exportOrder (some k) nodes).get ⟨i, hi⟩).retired = true)
    (hrj : ((exportOrder (some k) nodes).get ⟨j, hj⟩).retired = false) :
    i < j := by
  have hs : List.Sorted exportLe (exportOrder (some k) nodes) :=
    List.sorted_insertionSort exportLe nodes
  by_contra hij
  push_neg at hij
  rcases lt_or_eq_of_le hij with hlt | heq
  · have hrel := hs.rel_get_of_lt
      (show (⟨j, hj⟩ : Fin _) < ⟨i, hi⟩ from hlt)
    rcases hrel with hlt' | ⟨_, hle'⟩
    · rw [← hkey] at hlt'
      exact absurd hlt' (lt_irrefl _)
    · unfold retOrd at hle'
      rw [hri, hrj] at hle'
      simp at hle'
  · have hfin : (⟨j, hj⟩ : Fin (exportOrder (some k) nodes).length) =
        ⟨i, hi⟩ := Fin.ext heq
    rw [hfin, hri] at hrj
    exact Bool.noConfusion hrj

/-- Witness for C3: with the live node listed first in storage order, the
export sort puts the retired `alpha` node at position 0 and the live
`alpha` node at position 1. -/
theorem export_retired_before_live_witness :
    exportOrder (some "name") nodesSameKey =
      [⟨"alpha", true, [("id", "2")]⟩, ⟨"alpha", false, [("id", "1")]⟩] ∧
    (0 : Nat) < 1 :=
  ⟨by decide,
   export_retired_before_live "name" nodesSameKey 0 1
     (by decide) (by decide) (by decide) (by decide) (by decide)⟩

/-! ### Import engine lemmas -/

theorem mapM_import_foldlM (cn : String) (classProps header : List String) :
    ∀ (rows : List (List String)) (ids : List Nat) (acc : Nat),
      rows.mapM (import_list cn classProps header) = .ok ids →
      rows.foldlM
        (fun m r => (import_list cn classProps header r).map
          fun idn => max m idn)
        acc
      = .ok (ids.foldl max acc) := by
  intro rows
  induction rows with
  | nil =>
    intro ids acc h
    simp only [List.mapM_nil] at h
    cases h
    rfl
  | cons r rs ih =>
    intro ids acc h
    cases hfr : import_list cn classProps header r with
    | error e =>
      rw [List.mapM_cons, hfr] at h
      exact Except.noConfusion h
    | ok idn =>
      rw [List.mapM_cons, hfr] at h
      replace h : List.cons idn <$> rs.mapM (import_list cn classProps header)
          = Except.ok ids := h
      cases hrs : rs.mapM (import_list cn classProps header) with
      | error e =>
        rw [hrs] at h
        exact Except.noConfusion h
      | ok ids2 =>
        rw [hrs] at h
        have hids : idn :: ids2 = ids := Except.ok.inj h
        rw [← hids, List.foldlM_cons, hfr]
        exact ih ids2 (max acc idn) hrs

theorem foldl_max_comm (l : List Nat) (a : Nat) :
    l.foldl max a = max a (l.foldl max 0) := by
  induction l generalizing a with
  | nil => simp
  | cons b l ih =>
    simp only [List.foldl_cons]
    rw [ih (max a b), ih (max 0 b), Nat.zero_max, Nat.max_assoc]

theorem le_foldl_max (l : List Nat) (n : Nat) (h : n ∈ l) :
    n ≤ l.foldl max 0 := by
  induction l with
  | nil => simp at h
  | cons b l ih =>
    rw [List.foldl_cons, foldl_max_comm]
    rcases List.mem_cons.mp h with rfl | h2
    · exact le_trans (Nat.le_max_right 0 n) (Nat.le_max_left _ _)
    · exact le_trans (ih h2) (Nat.le_max_right _ _)

theorem doImportClass_found (schema : List (String × List String))
    (journals : List (String × List (List String))) (f : ClassFile)
    (classProps : List String)
    (hcls : lookupStr f.classname schema = some classProps) :
    doImportClass schema journals f =
      match f.rows.foldlM
          (fun m r => (import_list f.classname classProps f.header r).map
            fun idn => max m idn)
          1 with
      | .error e => .error e
      | .ok maxid =>
        match lookupStr f.classname journals with
        | none => .error (.journalMissing (f.classname ++ "-journals.csv"))
        | some _ => .ok (maxid + 1) := by
  unfold doImportClass
  rw [hcls]

theorem foldl_max_one_eq_zero (ids : List Nat) (h : ∃ n ∈ ids, 1 ≤ n) :
    ids.foldl max 1 = ids.foldl max 0 := by
  obtain ⟨n, hn, h1⟩ := h
  have hF : 1 ≤ ids.foldl max 0 := le_trans h1 (le_foldl_max ids n hn)
  rw [foldl_max_comm ids 1, foldl_max_comm ids 0, Nat.zero_max,
    Nat.max_eq_right hF]

/-- C2 counterexample: an `issue.csv` with one data row of identifier `0`
imports successfully, yet the counter is set to `2`, not to the claimed
`maximum identifier + 1 = 1` — because `maxid` starts at `1` in the
source, not at the maximum of the rows. -/
theorem import_counter_counterexample :
    doImportClass schemaIssueMsg journalsBoth fileZeroId = .ok 2 ∧
    (2 : Nat) ≠ 0 + 1 := by
  exact ⟨by decide, by decide⟩

/-- C2 (amended): after importing a class file whose rows carry the
identifiers `ids`, the counter is set to `max(1, maximum of ids) + 1`
(a fold of `max` starting at `1`); this equals `maximum + 1` whenever at
least one imported identifier is `1` or larger — in particular for every
file produced by export, since stored identifiers start at `1`. -/
theorem import_counter_amended (schema : List (String × List String))
    (journals : List (String × List (List String))) (f : ClassFile)
    (classProps : List String) (ids : List Nat)
    (hcls : lookupStr f.classname schema = some classProps)
    (hjournal : (lookupStr f.classname journals).isSome = true)
    (hrows : f.rows.mapM (import_list f.classname classProps f.header)
      = .ok ids) :
    doImportClass schema journals f = .ok (ids.foldl max 1 + 1) ∧
    ((∃ n ∈ ids, 1 ≤ n) →
      ids.foldl max 1 + 1 = ids.foldl max 0 + 1) := by
  constructor
  · rw [doImportClass_found schema journals f classProps hcls,
      mapM_import_foldlM f.classname classProps f.header f.rows ids 1 hrows]
    obtain ⟨js, hjs⟩ := Option.isSome_iff_exists.mp hjournal
    rw [hjs]
  · intro h
    rw [foldl_max_one_eq_zero ids h]

/-- Witness for the amended C2: identifiers `2` and `5` produce the counter
`6 = 5 + 1`, and the start-at-`1` fold agrees with the plain maximum. -/
theorem import_counter_amended_witness :
    doImportClass schemaIssueMsg journalsBoth fileTwoRows = .ok 6 ∧
    [2, 5].foldl max 1 + 1 = [2, 5].foldl max 0 + 1 := by
  have h := import_counter_amended schemaIssueMsg journalsBoth fileTwoRows
    ["id", "title"] [2, 5] (by decide) (by decide) (by decide)
  exact ⟨h.1, h.2 ⟨2, by decide, by decide⟩⟩

/-- C5 counterexample: with two class files in the directory, a format
mismatch in `issue.csv` makes the whole import return that error — the
well-formed `msg.csv`, which imports fine on its own, is never reached,
contradicting the claim that the batch continues with the next class
file. -/
theorem import_continues_counterexample :
    doImport schemaIssueMsg journalsBoth [fileBadHeader, fileGoodMsg] =
      .error (.formatMismatch "issue") ∧
    doImport schemaIssueMsg journalsBoth [fileGoodMsg] =
      .ok [("msg", 4)] := by
  exact ⟨by decide, by decide⟩

/-- C5 (amended): a fatal per-file error aborts the entire batch import:
the error propagates out of the file loop (which has no per-file handler)
and the remaining class files are not processed. -/
theorem import_error_aborts_batch (schema : List (String × List String))
    (journals : List (String × List (List String))) (f : ClassFile)
    (rest : List ClassFile) (e : ImpErr)
    (h : doImportClass schema journals f = .error e) :
    doImport schema journals (f :: rest) = .error e := by
  unfold doImport
  rw [List.foldlM_cons, h]
  rfl

/-- Witness for the amended C5: the bad `issue.csv` aborts the batch before
the well-formed `msg.csv`. -/
theorem import_error_aborts_batch_witness :
    doImport schemaIssueMsg journalsBoth [fileBadHeader, fileGoodMsg] =
      .error (.formatMismatch "issue") :=
  import_error_aborts_batch schemaIssueMsg journalsBoth fileBadHeader
    [fileGoodMsg] (.formatMismatch "issue") (by decide)

/-- C6 counterexample: importing `issue.csv` with no `issue-journals.csv`
in the directory raises a file-not-found failure instead of tolerating and
skipping the missing companion file, so the class's import does not
succeed. -/
theorem journal_tolerated_counterexample :
    doImportClass schemaIssueMsg journalsMsgOnly fileZeroId =
      .error (.journalMissing "issue-journals.csv") := by
  decide

/-- C6 (amended): when the per-class journal companion file is absent, the
unguarded `open` raises, the class's import fails with file-not-found, and
the identifier counter for the class is never set. -/
theorem missing_journal_raises (schema : List (String × List String))
    (journals : List (String × List (List String))) (f : ClassFile)
    (classProps : List String) (maxid : Nat)
    (hcls : lookupStr f.classname schema = some classProps)
    (hrows : f.rows.foldlM
      (fun m r => (import_list f.classname classProps f.header r).map
        fun idn => max m idn) 1 = .ok maxid)
    (hj : lookupStr f.classname journals = none) :
    doImportClass schema journals f =
      .error (.journalMissing (f.classname ++ "-journals.csv")) := by
  rw [doImportClass_found schema journals f classProps hcls, hrows, hj]

/-- Witness for the amended C6: rows of `issue.csv` import (maxid `5`), but
the absent `issue-journals.csv` fails the class. -/
theorem missing_journal_raises_witness :
    doImportClass schemaIssueMsg journalsMsgOnly fileTwoRows =
      .error (.journalMissing "issue-journals.csv") :=
  missing_journal_raises schemaIssueMsg journalsMsgOnly fileTwoRows
    ["id", "title"] 5 (by decide) (by decide) (by decide)

/-! ### props_from_args lemmas -/

theorem string_toList_append (s t : String) :
    (s ++ t).toList = s.toList ++ t.toList := rfl

theorem splitEqOnce_none (l : List Char) (h : '=' ∉ l) :
    splitEqOnce l = none := by
  induction l with
  | nil => rfl
  | cons c cs ih =>
    have hc : ¬c = '=' := fun hh => h (hh ▸ List.mem_cons_self c cs)
    rw [splitEqOnce, if_neg hc, ih fun hm => h (List.mem_cons_of_mem c hm)]

theorem splitEqOnce_append (name rest : List Char) (h : '=' ∉ name) :
    splitEqOnce (name ++ '=' :: rest) = some (name, rest) := by
  induction name with
  | nil => simp [splitEqOnce]
  | cons c cs ih =>
    have hc : ¬c = '=' := fun hh => h (hh ▸ List.mem_cons_self c cs)
    rw [List.cons_append, splitEqOnce, if_neg hc,
      ih fun hm => h (List.mem_cons_of_mem c hm)]

theorem parseArg_assign (name text : String) (hname : '=' ∉ name.toList) :
    parseArg (name ++ "=" ++ text)
      = .ok (name, if text.toList.isEmpty then none else some text) := by
  unfold parseArg
  have hsplit : (name ++ "=" ++ text).toList
      = name.toList ++ '=' :: text.toList := by
    rw [string_toList_append, string_toList_append]
    simp
  rw [hsplit, splitEqOnce_append _ _ hname]
  rfl

theorem parseArg_unset (name : String) (hname : '=' ∉ name.toList) :
    parseArg (name ++ "=") = .ok (name, none) := by
  unfold parseArg
  have hsplit : (name ++ "=").toList = name.toList ++ '=' :: [] := by
    rw [string_toList_append]
    rfl
  rw [hsplit, splitEqOnce_append _ _ hname]
  rfl

theorem props_fold_error (arg : String) (herr : parseArg arg = .error ()) :
    ∀ (args : List String) (acc : List (String × Option String)),
      arg ∈ args →
      args.foldlM
        (fun props a => (parseArg a).map fun kv => dictInsert props kv.1 kv.2)
        acc = .error () := by
  intro args
  induction args with
  | nil =>
    intro acc h
    simp at h
  | cons b bs ih =>
    intro acc h
    rw [List.foldlM_cons]
    cases hb : parseArg b with
    | error e =>
      cases e
      rfl
    | ok kv =>
      rcases List.mem_cons.mp h with rfl | h2
      · rw [herr] at hb
        exact Except.noConfusion hb
      · exact ih (dictInsert acc kv.1 kv.2) h2

/-- C8: parsing a raw assignment list: `name=text` with non-empty `text`
maps `name` to `text`; `name=` maps `name` to the absent value ("unset this
property"); and any argument with no `'='` anywhere in the list makes
`props_from_args` fail with a usage error. -/
theorem props_from_args_spec (name text arg : String) (args : List String)
    (hname : '=' ∉ name.toList) (harg : '=' ∉ arg.toList)
    (hmem : arg ∈ args) (htext : text ≠ "") :
    props_from_args [name ++ "=" ++ text] = .ok [(name, some text)] ∧
    props_from_args [name ++ "="] = .ok [(name, none)] ∧
    props_from_args args = .error () := by
  have htl : text.toList ≠ [] := fun hh =>
    htext (String.toList_inj.mp (by rw [hh]; rfl))
  have hne : text.toList.isEmpty = false := by
    cases ht : text.toList with
    | nil => exact absurd ht htl
    | cons a as => rfl
  refine ⟨?_, ?_, ?_⟩
  · unfold props_from_args
    rw [List.foldlM_cons, parseArg_assign name text hname, hne]
    rfl
  · unfold props_from_args
    rw [List.foldlM_cons, parseArg_unset name hname]
    rfl
  · have herr : parseArg arg = .error () := by
      unfold parseArg
      rw [splitEqOnce_none arg.toList harg]
    exact props_fold_error arg herr args [] hmem

/-- Witness for C8: `status=open` binds `status` to `open`; `status=`
unsets `status`; the argument `foo` (no `'='`) fails the whole parse. -/
theorem props_from_args_spec_witness :
    props_from_args ["status=open"] = .ok [("status", some "open")] ∧
    props_from_args ["status="] = .ok [("status", none)] ∧
    props_from_args ["a=1", "foo"] = .error () := by
  have h := props_from_args_spec "status" "open" "foo" ["a=1", "foo"]
    (by decide) (by decide) (by decide) (by decide)
  exact ⟨h.1, h.2.1, h.2.2⟩

end Roundup
